import Mathlib

/-!
Verification of the authentication core of the `rcpdaemon` repository:
the group-to-permission mapping algorithms of the native OS providers
(`src/auth/native_linux.rs`, `native_macos.rs`, `native_unix.rs`,
`native_windows.rs`, and the shared `improved_native.rs`), the mock
provider (`src/auth/mock_provider.rs`), the provider factory
(`src/auth/factory.rs`) and the `AuthManager` orchestration layer with
its fallback-to-internal semantics (`src/auth/manager.rs`).

Rust strings are modelled as Lean `String`; the Rust `str` operations
used by the code (`starts_with`, `ends_with`, `contains`,
`trim_end_matches`, `trim_start_matches`, `trim`, `split`,
`split_whitespace`) are re-defined below over the underlying character
lists so that every definition is executable by the kernel.
Byte slices (`&[u8]`) are modelled as `List Nat`; `anyhow::Error` is
modelled as `String` (the formatted message); fallible functions return
`Except String α`.  Rust `HashMap`s are modelled as association lists
with `List.lookup`.
-/

/-- Whitespace recogniser used by the models of Rust `trim` and
`split_whitespace`. -/
def isWs (c : Char) : Bool :=
  c == ' ' || c == '\t' || c == '\n' || c == '\r'

/-- Model of Rust `str::trim` on a character list: drop whitespace from
both ends. -/
def trimChars (l : List Char) : List Char :=
  ((l.dropWhile isWs).reverse.dropWhile isWs).reverse

/-- Model of Rust `str::trim`. -/
def trimStr (s : String) : String :=
  ⟨trimChars s.toList⟩

/-- Tail of Rust `str::split(c)`: split a character list at every
occurrence of `c`, keeping empty segments (Rust semantics). -/
def splitCharList (c : Char) : List Char → List (List Char)
  | [] => [[]]
  | x :: xs =>
    if x == c then
      [] :: splitCharList c xs
    else
      match splitCharList c xs with
      | [] => [[x]]
      | seg :: rest => (x :: seg) :: rest

/-- Model of Rust `str::split(c).collect::<Vec<_>>()`. -/
def splitChar (s : String) (c : Char) : List String :=
  (splitCharList c s.toList).map fun l => ⟨l⟩

/-- Tail of the model of Rust `str::split_whitespace`: the accumulator
holds the current word reversed. -/
def splitWsList : List Char → List Char → List (List Char)
  | [], acc => if acc.isEmpty then [] else [acc.reverse]
  | c :: cs, acc =>
    if isWs c then
      if acc.isEmpty then splitWsList cs [] else acc.reverse :: splitWsList cs []
    else
      splitWsList cs (c :: acc)

/-- Model of Rust `str::split_whitespace().collect::<Vec<_>>()`: the
maximal non-empty whitespace-free words. -/
def splitWs (s : String) : List String :=
  (splitWsList s.toList []).map fun l => ⟨l⟩

/-- Fuel-driven worker for the models of Rust `trim_start_matches` /
`trim_end_matches`: repeatedly strip the pattern `pat` from the front
of the list.  Each successful strip removes `pat.length ≥ 1` elements,
so fuel `l.length + 1` always reaches the fixpoint. -/
def trimLeadingAux (pat : List Char) : Nat → List Char → List Char
  | 0, l => l
  | n + 1, l =>
    if !pat.isEmpty && pat.isPrefixOf l then
      trimLeadingAux pat n (l.drop pat.length)
    else
      l

/-- Strip every leading occurrence of `pat` from `l`. -/
def trimLeadingList (pat l : List Char) : List Char :=
  trimLeadingAux pat (l.length + 1) l

/-- Model of Rust `str::trim_start_matches(pat)`: repeatedly removes
the prefix `pat`. -/
def trimStartMatches (s pat : String) : String :=
  ⟨trimLeadingList pat.toList s.toList⟩

/-- Model of Rust `str::trim_end_matches(pat)`: repeatedly removes the
suffix `pat` (stripping a suffix is stripping a reversed prefix of the
reversed list). -/
def trimEndMatches (s pat : String) : String :=
  ⟨(trimLeadingList pat.toList.reverse s.toList.reverse).reverse⟩

/-- Model of Rust `str::starts_with(pat)`. -/
def strStartsWith (s pat : String) : Bool :=
  pat.toList.isPrefixOf s.toList

/-- Model of Rust `str::ends_with(pat)`. -/
def strEndsWith (s pat : String) : Bool :=
  pat.toList.reverse.isPrefixOf s.toList.reverse

/-- Model of Rust `str::contains(pat)` (substring containment). -/
def strContains (s pat : String) : Bool :=
  (List.range (s.toList.length + 1)).any fun i =>
    pat.toList.isPrefixOf (s.toList.drop i)

/-- Model of Rust `str::dropping the last character` (used only to
state the spec's "prefix up to and including the colon" for a pattern
ending in `:*`). -/
def strDropLast (s : String) : String :=
  ⟨s.toList.dropLast⟩

/-- `UserRole` from `src/server/user.rs`. -/
inductive UserRole where
  | Admin : UserRole
  | User : UserRole
  | Guest : UserRole
deriving DecidableEq, BEq, Repr

/-- `User` from `src/server/user.rs`; the `Uuid` id is modelled as an
opaque `Nat`. -/
structure User where
  id : Nat
  username : String
  full_name : Option String
  email : Option String
  password_hash : String
  role : UserRole
  created_at : String
  updated_at : String
deriving DecidableEq, Repr

/-- `NativeAuthConfig` from `src/auth/factory.rs`; the per-OS
`LinuxAuthConfig` / `MacOSAuthConfig` / `UnixAuthConfig` /
`WindowsAuthConfig` structs have exactly the same five fields, so they
share this model.  `permission_mappings : HashMap<String, Vec<String>>`
is modelled as an association list. -/
structure NativeAuthConfig where
  allow_all_users : Bool
  require_group : Option String
  permission_mapping : Bool
  admin_groups : List String
  permission_mappings : List (String × List String)
deriving DecidableEq, Repr

/-- `Default for LinuxAuthConfig` from `src/auth/native_linux.rs`. -/
def LinuxAuthConfig.default : NativeAuthConfig where
  allow_all_users := false
  require_group := some "rcp-users"
  permission_mapping := true
  admin_groups := ["sudo", "wheel", "admin"]
  permission_mappings := []

/-- `map_permissions_common` from `src/auth/improved_native.rs`
(lines 411-450): admin short-circuit, deduplicating union of custom
mappings, then the `connect:basic` floor for members of the required
group. -/
def map_permissions_common (groups admin_groups : List String)
    (require_group : Option String)
    (permission_mappings : List (String × List String)) : List String :=
  let is_admin := groups.any fun g => admin_groups.contains g
  if is_admin then
    ["admin:*", "connect:*", "app:*"]
  else
    let permissions := groups.foldl (fun permissions group =>
      match permission_mappings.lookup group with
      | some group_permissions =>
        group_permissions.foldl
          (fun acc p => if acc.contains p then acc else acc ++ [p]) permissions
      | none => permissions) []
    if permissions.isEmpty &&
        (match require_group with
         | some required_group => groups.contains required_group
         | none => false) then
      permissions ++ ["connect:basic"]
    else
      permissions

/-- `LinuxAuthProvider::map_permissions` from
`src/auth/native_linux.rs` (lines 108-142): pushes `admin:*` when an
admin group is present (no short-circuit), always pushes `connect:*`,
then `rcp-app-` / api groups and custom mappings in group order. -/
def LinuxAuthProvider.map_permissions (cfg : NativeAuthConfig)
    (groups : List String) : List String :=
  let permissions : List String := []
  let is_admin := groups.any fun g => cfg.admin_groups.contains g
  let permissions := if is_admin then permissions ++ ["admin:*"] else permissions
  let permissions := permissions ++ ["connect:*"]
  groups.foldl (fun permissions group =>
    let permissions :=
      if strStartsWith group "rcp-app-" then
        permissions ++ ["app:" ++ trimStartMatches group "rcp-app-"]
      else permissions
    let permissions :=
      if group == "rcp-api-users" then permissions ++ ["api:read"] else permissions
    let permissions :=
      if group == "rcp-api-admins" then permissions ++ ["api:write"] else permissions
    match cfg.permission_mappings.lookup group with
    | some custom_perms => permissions ++ custom_perms
    | none => permissions) permissions

/-- `MacOSAuthProvider::map_permissions` from
`src/auth/native_macos.rs` (lines 119-153); same algorithm as the
Linux provider's mapper. -/
def MacOSAuthProvider.map_permissions (cfg : NativeAuthConfig)
    (groups : List String) : List String :=
  LinuxAuthProvider.map_permissions cfg groups

/-- `UnixAuthProvider::map_permissions` from `src/auth/native_unix.rs`
(lines 131-168): unlike the Linux/macOS mappers this one does
short-circuit on admin groups with the fixed triple, then falls back
to the `connect:*` baseline plus group-derived permissions. -/
def UnixAuthProvider.map_permissions (cfg : NativeAuthConfig)
    (groups : List String) : List String :=
  let is_admin := groups.any fun g => cfg.admin_groups.contains g
  if is_admin then
    ["admin:*", "connect:*", "app:*"]
  else
    let permissions : List String := ["connect:*"]
    groups.foldl (fun permissions group =>
      let permissions :=
        if strStartsWith group "rcp-app-" then
          permissions ++ ["app:" ++ trimStartMatches group "rcp-app-"]
        else permissions
      let permissions :=
        if group == "rcp-api-users" then permissions ++ ["api:read"] else permissions
      let permissions :=
        if group == "rcp-api-admins" then permissions ++ ["api:write"] else permissions
      match cfg.permission_mappings.lookup group with
      | some custom_perms => permissions ++ custom_perms
      | none => permissions) permissions

/-- `WindowsAuthProvider::map_permissions` from
`src/auth/native_windows.rs` (lines 133-166): like the Linux mapper
(no admin short-circuit) but with the Windows group-name spellings. -/
def WindowsAuthProvider.map_permissions (cfg : NativeAuthConfig)
    (groups : List String) : List String :=
  let permissions : List String := []
  let is_admin := groups.any fun g => cfg.admin_groups.contains g
  let permissions := if is_admin then permissions ++ ["admin:*"] else permissions
  let permissions := permissions ++ ["connect:*"]
  groups.foldl (fun permissions group =>
    let permissions :=
      if strStartsWith group "RCP-App-" then
        permissions ++ ["app:" ++ trimStartMatches group "RCP-App-"]
      else permissions
    let permissions :=
      if group == "RCP-API-Users" then permissions ++ ["api:read"] else permissions
    let permissions :=
      if group == "RCP-API-Admins" then permissions ++ ["api:write"] else permissions
    match cfg.permission_mappings.lookup group with
    | some custom_perms => permissions ++ custom_perms
    | none => permissions) permissions

/-- Result of a `std::process::Command::output()` call whose spawn
succeeded: the exit-status success flag and the captured stdout (after
`String::from_utf8_lossy`). -/
structure CmdOutput where
  success : Bool
  stdout : String
deriving DecidableEq, Repr

/-- The identity-source collaborator of the Linux provider: the three
OS commands `src/auth/native_linux.rs` spawns.  A `.error` models a
spawn failure (the `?` on `output()`); `.ok` carries status and
stdout. -/
structure LinuxOs where
  getent_group : String → Except String CmdOutput
  groups_cmd : String → Except String CmdOutput
  id_cmd : String → Except String CmdOutput

/-- `LinuxAuthProvider::is_member_of_group` from
`src/auth/native_linux.rs` (lines 66-78): run `getent group <group>`,
take field 3 of the colon-separated output, and look for the username
among the comma-separated trimmed members. -/
def LinuxAuthProvider.is_member_of_group (os : LinuxOs)
    (username group : String) : Except String Bool :=
  match os.getent_group group with
  | .error e => .error e
  | .ok output =>
    if !output.success then
      .ok false
    else
      let members := (splitChar output.stdout ':').getD 3 ""
      .ok ((splitChar members ',').any fun m => trimStr m == username)

/-- `LinuxAuthProvider::validate_system_credentials` from
`src/auth/native_linux.rs` (lines 145-153): the password is ignored
and only account existence is checked via `id <username>`. -/
def LinuxAuthProvider.validate_system_credentials (os : LinuxOs)
    (username : String) (_password : List Nat) : Except String Bool :=
  match os.id_cmd username with
  | .error e => .error e
  | .ok output => .ok output.success

/-- `LinuxAuthProvider::validate_credentials` from
`src/auth/native_linux.rs` (lines 168-199). -/
def LinuxAuthProvider.validate_credentials (os : LinuxOs)
    (cfg : NativeAuthConfig) (username : String) (credentials : List Nat)
    (method : String) : Except String Bool :=
  match method with
  | "psk" =>
    if !cfg.allow_all_users then
      match cfg.require_group with
      | some required_group =>
        LinuxAuthProvider.is_member_of_group os username required_group
      | none =>
        match os.id_cmd username with
        | .error e => .error e
        | .ok output => .ok output.success
    else
      match os.id_cmd username with
      | .error e => .error e
      | .ok output => .ok output.success
  | "password" =>
    LinuxAuthProvider.validate_system_credentials os username credentials
  | "publickey" => .ok false
  | _ => .error ("Unsupported authentication method: " ++ method)

/-- `MockAuthProvider` from `src/auth/mock_provider.rs`; the three
`HashMap`s are modelled as association lists. -/
structure MockAuthProvider where
  users : List (String × User)
  credentials : List (String × List Nat)
  permissions : List (String × List String)
  initialized : Bool

/-- `MockAuthProvider::new` (empty maps, not initialized). -/
def MockAuthProvider.new : MockAuthProvider :=
  { users := [], credentials := [], permissions := [], initialized := false }

/-- `MockAuthProvider::validate_credentials` from
`src/auth/mock_provider.rs` (lines 65-85): `password` compares stored
bytes, `psk` only checks key membership in `users`, anything else is
`Ok(false)`. -/
def MockAuthProvider.validate_credentials (m : MockAuthProvider)
    (username : String) (credentials : List Nat) (method : String) :
    Except String Bool :=
  match method with
  | "password" =>
    match m.credentials.lookup username with
    | some stored_creds => .ok (stored_creds == credentials)
    | none => .ok false
  | "psk" => .ok ((m.users.lookup username).isSome)
  | _ => .ok false

/-- `MockAuthProvider::has_permission` from `src/auth/mock_provider.rs`
(lines 116-140): exact match, then the wildcard scan, then the admin
override. -/
def MockAuthProvider.has_permission (m : MockAuthProvider) (user : User)
    (permission : String) : Bool :=
  match m.permissions.lookup user.username with
  | some perms =>
    if perms.contains permission then true
    else if perms.any (fun perm =>
        strEndsWith perm ":*" &&
        strStartsWith permission (trimEndMatches perm ":*")) then true
    else decide (user.role = UserRole.Admin)
  | none => decide (user.role = UserRole.Admin)

/-- The permission-scan loop shared (verbatim) by the native providers'
`has_permission` (`src/auth/native_macos.rs` lines 338-349,
`native_linux.rs` lines 328-339, `native_unix.rs` lines 354-365):
first the wildcard test, then the exact test, with early return. -/
def hasPermissionLoop (permission : String) : List String → Bool
  | [] => false
  | perm :: rest =>
    if strEndsWith perm ":*" &&
        strStartsWith permission (trimEndMatches perm ":*") then true
    else if perm == permission then true
    else hasPermissionLoop permission rest

/-- `MacOSAuthProvider::has_permission` from
`src/auth/native_macos.rs` (lines 330-352), factored through the
resolved group list (the provider obtains `groups` from its identity
source and then scans `map_permissions groups`). -/
def MacOSAuthProvider.has_permission_on_groups (cfg : NativeAuthConfig)
    (groups : List String) (permission : String) : Bool :=
  hasPermissionLoop permission (MacOSAuthProvider.map_permissions cfg groups)

/-- Modelled from the spec: the per-pattern match criterion in the
words of the specification ("a granted pattern `P` matches a requested
permission `R` if `P == R`, or if `P` ends in `:*` and `R` starts with
the same prefix up to and including the colon").  Stated only to be
compared against the source-derived matching. -/
def specPatternMatch (p r : String) : Bool :=
  p == r || (strEndsWith p ":*" && strStartsWith r (strDropLast p))

/-- `AuthProviderType` from `src/auth/factory.rs`. -/
inductive AuthProviderType where
  | Internal : AuthProviderType
  | Native : AuthProviderType
  | Ldap : AuthProviderType
  | OAuth : AuthProviderType
  | Mock : AuthProviderType
deriving DecidableEq, Repr

/-- `AuthConfig` from `src/auth/factory.rs`; the `ldap` and `oauth`
`HashMap<String, String>`s are modelled as association lists. -/
structure AuthConfig where
  provider : AuthProviderType
  required : Bool
  psk : Option String
  fallback_to_internal : Bool
  native : NativeAuthConfig
  ldap : List (String × String)
  oauth : List (String × String)

/-- The behaviour of a boxed `dyn AuthProvider` as the manager sees it
during credential validation: its `name()` and its
`validate_credentials` function. -/
structure ProviderBehavior where
  name : String
  validate : String → List Nat → String → Except String Bool

/-- The behaviour of a `MockAuthProvider` viewed through the
`AuthProvider` trait (its `name()` is `"mock-provider"`). -/
def MockAuthProvider.behavior (m : MockAuthProvider) : ProviderBehavior :=
  { name := "mock-provider"
    validate := fun u c meth => m.validate_credentials u c meth }

/-- `AuthProviderFactory::create_provider` from `src/auth/factory.rs`
(lines 143-252).  The `Native` arm is compile-time platform selection
(`#[cfg]` blocks); it is abstracted as the `platform_native`
parameter.  `Internal`, `Ldap` and `OAuth` deterministically fail with
the source's error messages; `Mock` returns a fresh
`MockAuthProvider::new()`. -/
def AuthProviderFactory.create_provider
    (platform_native : AuthConfig → Except String ProviderBehavior)
    (config : AuthConfig) : Except String ProviderBehavior :=
  match config.provider with
  | AuthProviderType.Internal =>
    .error "Internal provider not implemented in this example"
  | AuthProviderType.Native => platform_native config
  | AuthProviderType.Ldap => .error "LDAP provider not implemented yet"
  | AuthProviderType.OAuth => .error "OAuth provider not implemented yet"
  | AuthProviderType.Mock => .ok MockAuthProvider.new.behavior

/-- The fields of `AuthManager` (`src/auth/manager.rs`) that
`validate_credentials` reads: the configuration and the active
provider. -/
structure AuthManager where
  config : AuthConfig
  provider : ProviderBehavior

/-- `AuthManager::validate_credentials` from `src/auth/manager.rs`
(lines 53-102): delegate to the active provider; on error, when
`fallback_to_internal` is set and the provider name contains
`"native"`, build a fresh Internal provider through the factory and
retry once, degrading every fallback-path failure to `Ok(false)`;
otherwise propagate the error unchanged. -/
def AuthManager.validate_credentials
    (platform_native : AuthConfig → Except String ProviderBehavior)
    (m : AuthManager) (username : String) (credentials : List Nat)
    (method : String) : Except String Bool :=
  match m.provider.validate username credentials method with
  | .ok valid => .ok valid
  | .error e =>
    if m.config.fallback_to_internal && strContains m.provider.name "native" then
      let fallback_config := { m.config with provider := AuthProviderType.Internal }
      match AuthProviderFactory.create_provider platform_native fallback_config with
      | .ok fallback_provider =>
        match fallback_provider.validate username credentials method with
        | .ok valid => .ok valid
        | .error _ => .ok false
      | .error _ => .ok false
    else
      .error e

/-- The observable state of `AuthManager::initialize`
(`src/auth/manager.rs` lines 36-50): the `initialized` flag plus an
instrumentation counter recording how many times the active provider's
`initialize()` has been invoked (its observable side effect). -/
structure InitState where
  initialized : Bool
  provider_init_calls : Nat
deriving DecidableEq, Repr

/-- `AuthManager::initialize` from `src/auth/manager.rs` (lines
36-50): a no-op once `initialized` is set; otherwise invoke the
provider's `initialize()` (whose outcome is the `provider_init`
parameter), propagating its error and setting the flag on success. -/
def AuthManager.initializeMgr (provider_init : Except String Unit)
    (s : InitState) : Except String Unit × InitState :=
  if s.initialized then
    (.ok (), s)
  else
    match provider_init with
    | .ok _ =>
      (.ok (), { initialized := true,
                 provider_init_calls := s.provider_init_calls + 1 })
    | .error e =>
      (.error e, { s with provider_init_calls := s.provider_init_calls + 1 })

/-- The identity-source collaborator of the generic Unix provider:
the `groups <username>` command that
`UnixAuthProvider::get_user_groups` spawns. -/
structure UnixOs where
  groups_cmd : String → Except String CmdOutput

/-- HashMap insert on the association-list model: replace any binding
of the key and prepend the new one. -/
def insertAssoc (l : List (String × List String)) (k : String)
    (v : List String) : List (String × List String) :=
  (k, v) :: l.filter fun kv => kv.1 != k

/-- The state of `UnixAuthProvider` (`src/auth/native_unix.rs`): its
configuration and the two caches. -/
structure UnixAuthProvider where
  config : NativeAuthConfig
  user_cache : List (String × User)
  group_cache : List (String × List String)

/-- `UnixAuthProvider::get_user_groups` from `src/auth/native_unix.rs`
(lines 91-128), with the provider state threaded explicitly.  The
source clones `self.group_cache`, inserts the freshly computed group
list into the clone, and drops the clone (the method takes `&self`),
so the returned provider state is the input state unchanged. -/
def UnixAuthProvider.get_user_groups (os : UnixOs) (p : UnixAuthProvider)
    (username : String) : Except String (List String) × UnixAuthProvider :=
  match p.group_cache.lookup username with
  | some groups => (.ok groups, p)
  | none =>
    match os.groups_cmd username with
    | .error e => (.error e, p)
    | .ok output =>
      if !output.success then
        (.error "Failed to list groups", p)
      else
        let parts := splitChar output.stdout ':'
        let groups_str :=
          if parts.length > 1 then trimStr (parts.getD 1 "")
          else trimStr output.stdout
        let groups := splitWs groups_str
        let cache := p.group_cache
        let _updated := insertAssoc cache username groups
        (.ok groups, p)

/-- `default_admin_groups` from `src/auth/factory.rs` (lines 117-124). -/
def default_admin_groups : List String :=
  ["administrators", "wheel", "sudo", "admin"]

/-- A platform with no native adapter: the factory's final `#[cfg]`
arm (`src/auth/factory.rs` lines 215-237). -/
def platformNativeStub : AuthConfig → Except String ProviderBehavior :=
  fun _ => .error "Native authentication not supported on this platform"

/-- A native-named active provider whose validation errors (e.g. the
`groups` spawn failed), used to exercise the fallback path. -/
def failingNativeProvider : ProviderBehavior where
  name := "linux-native"
  validate := fun _ _ _ => .error "Failed to list groups"

/-- A provider whose `name()` does not contain `"native"` and whose
validation errors, used to exercise the propagation path. -/
def failingMockNamedProvider : ProviderBehavior where
  name := "mock-provider"
  validate := fun _ _ _ => .error "mock backend failure"

/-- An `AuthConfig` selecting the native provider with
`fallback_to_internal = true`. -/
def authConfigNativeFallback : AuthConfig where
  provider := AuthProviderType.Native
  required := true
  psk := none
  fallback_to_internal := true
  native := LinuxAuthConfig.default
  ldap := []
  oauth := []

/-- The same configuration with `fallback_to_internal = false`. -/
def authConfigNativeNoFallback : AuthConfig where
  provider := AuthProviderType.Native
  required := true
  psk := none
  fallback_to_internal := false
  native := LinuxAuthConfig.default
  ldap := []
  oauth := []

/-- Manager holding a failing native provider with fallback enabled. -/
def mgrFallback : AuthManager where
  config := authConfigNativeFallback
  provider := failingNativeProvider

/-- Manager holding a failing native provider with fallback disabled. -/
def mgrNoFallback : AuthManager where
  config := authConfigNativeNoFallback
  provider := failingNativeProvider

/-- A non-admin user for the permission-matching witnesses. -/
def userC4 : User where
  id := 1
  username := "testuser"
  full_name := none
  email := none
  password_hash := ""
  role := UserRole.User
  created_at := ""
  updated_at := ""

/-- A mock provider granting `testuser` the single pattern `x:*`. -/
def mockC4 : MockAuthProvider where
  users := []
  credentials := []
  permissions := [("testuser", ["x:*"])]
  initialized := false

/-- A benign identity-source stub for the Linux provider. -/
def linuxOsStub : LinuxOs where
  getent_group := fun _ => .ok ⟨true, ""⟩
  groups_cmd := fun _ => .ok ⟨true, ""⟩
  id_cmd := fun _ => .ok ⟨true, ""⟩

/-- Helper: a single `get_user_groups` call returns the provider state
unchanged (every branch of the source returns with `&self` intact; the
cache insert happens on a discarded clone). -/
theorem get_user_groups_state_eq (os : UnixOs) (p : UnixAuthProvider)
    (username : String) :
    (UnixAuthProvider.get_user_groups os p username).2 = p := by
  unfold UnixAuthProvider.get_user_groups
  split
  · rfl
  · split
    · rfl
    · split
      · rfl
      · rfl

/-- Helper: the custom-mapping fold of `map_permissions_common` is the
identity when no group has a mapping entry. -/
theorem perm_fold_empty (pm : List (String × List String))
    (groups : List String) (acc : List String)
    (h : ∀ g ∈ groups, pm.lookup g = none) :
    groups.foldl (fun permissions group =>
      match pm.lookup group with
      | some group_permissions =>
        group_permissions.foldl
          (fun acc p => if acc.contains p then acc else acc ++ [p]) permissions
      | none => permissions) acc = acc := by
  induction groups generalizing acc with
  | nil => rfl
  | cons g gs ih =>
    rw [List.foldl_cons, h g (by simp)]
    exact ih _ fun x hx => h x (by simp [hx])

/-- Helper: one step of the native providers' permission-scan loop as
a boolean disjunction. -/
theorem hasPermissionLoop_cons_eq (r p : String) (rest : List String) :
    hasPermissionLoop r (p :: rest) =
      ((strEndsWith p ":*" && strStartsWith r (trimEndMatches p ":*")) || p == r
        || hasPermissionLoop r rest) := by
  simp only [hasPermissionLoop]
  by_cases h1 : (strEndsWith p ":*" && strStartsWith r (trimEndMatches p ":*")) = true
  · simp [h1]
  · simp only [Bool.not_eq_true] at h1
    simp only [h1, Bool.false_eq_true, if_false, Bool.false_or]
    by_cases h2 : (p == r) = true
    · simp [h2]
    · simp only [Bool.not_eq_true] at h2
      simp [h2]

/-- Helper: the native providers' permission scan succeeds exactly when
some granted pattern is the requested permission verbatim, or ends in
`:*` and the request starts with the pattern minus its trailing `:*`
occurrences (colon not included). -/
theorem hasPermissionLoop_iff (r : String) (l : List String) :
    hasPermissionLoop r l = true ↔
      ∃ p ∈ l, p = r ∨ (strEndsWith p ":*" = true
        ∧ strStartsWith r (trimEndMatches p ":*") = true) := by
  induction l with
  | nil => simp [hasPermissionLoop]
  | cons p rest ih =>
    rw [hasPermissionLoop_cons_eq]
    constructor
    · intro h
      simp only [Bool.or_eq_true, Bool.and_eq_true, beq_iff_eq] at h
      rcases h with (⟨hE, hS⟩ | hpr) | hC
      · exact ⟨p, List.mem_cons_self p rest, Or.inr ⟨hE, hS⟩⟩
      · exact ⟨p, List.mem_cons_self p rest, Or.inl hpr⟩
      · obtain ⟨q, hq, hcase⟩ := ih.mp hC
        exact ⟨q, List.mem_cons_of_mem p hq, hcase⟩
    · rintro ⟨q, hq, hcase⟩
      simp only [Bool.or_eq_true, Bool.and_eq_true, beq_iff_eq]
      rcases List.mem_cons.mp hq with hqp | hq'
      · subst hqp
        rcases hcase with hpr | hw
        · exact Or.inl (Or.inr hpr)
        · exact Or.inl (Or.inl hw)
      · exact Or.inr (ih.mpr ⟨q, hq', hcase⟩)

/-- Claim C1 (counterexample): the claim is false for
`LinuxAuthProvider::map_permissions`.  With the provider's default
configuration (admin groups `sudo`, `wheel`, `admin`) and the group
list `["sudo"]` — which intersects the admin groups — the computed set
is `["admin:*", "connect:*"]`, not the fixed triple
`{admin:*, connect:*, app:*}` (no `app:*`, and custom mappings would
still be appended). -/
theorem linux_map_permissions_admin_no_short_circuit :
    ((["sudo"] : List String).any
        fun g => LinuxAuthConfig.default.admin_groups.contains g) = true
    ∧ LinuxAuthProvider.map_permissions LinuxAuthConfig.default ["sudo"]
        = ["admin:*", "connect:*"] := by
  decide

/-- Claim C1 (amended): the admin short-circuit to exactly
`{admin:*, connect:*, app:*}` — regardless of `require_group` and of
`permission_mappings` — holds for the shared mapper
`map_permissions_common` and for `UnixAuthProvider::map_permissions`,
which return that fixed triple whenever the group list intersects the
configured admin groups. -/
theorem admin_short_circuit_fixed_triple (cfg : NativeAuthConfig)
    (groups : List String)
    (h : (groups.any fun g => cfg.admin_groups.contains g) = true) :
    map_permissions_common groups cfg.admin_groups cfg.require_group
        cfg.permission_mappings = ["admin:*", "connect:*", "app:*"]
    ∧ UnixAuthProvider.map_permissions cfg groups
        = ["admin:*", "connect:*", "app:*"] := by
  constructor
  · unfold map_permissions_common
    rw [if_pos h]
  · unfold UnixAuthProvider.map_permissions
    rw [if_pos h]

/-- Claim C1 (witness): concrete instance of the amended claim, with a
custom mapping entry present to show it is ignored. -/
theorem admin_short_circuit_fixed_triple_witness :
    ((["wheel", "staff"] : List String).any
        fun g => (NativeAuthConfig.mk false (some "rcp-users") true
          ["wheel"] [("staff", ["db:read"])]).admin_groups.contains g) = true
    ∧ (map_permissions_common ["wheel", "staff"] ["wheel"] (some "rcp-users")
          [("staff", ["db:read"])] = ["admin:*", "connect:*", "app:*"]
       ∧ UnixAuthProvider.map_permissions
          (NativeAuthConfig.mk false (some "rcp-users") true
            ["wheel"] [("staff", ["db:read"])]) ["wheel", "staff"]
          = ["admin:*", "connect:*", "app:*"]) :=
  ⟨by decide,
   admin_short_circuit_fixed_triple
     (NativeAuthConfig.mk false (some "rcp-users") true
       ["wheel"] [("staff", ["db:read"])])
     ["wheel", "staff"] (by decide)⟩

/-- Claim C2: if `fallback_to_internal` is set and the active
provider's name contains `"native"`, an error from the active
provider's `validate_credentials` never escapes
`AuthManager::validate_credentials`: the result is `Ok` of some
boolean. -/
theorem manager_fallback_never_errors
    (platform_native : AuthConfig → Except String ProviderBehavior)
    (m : AuthManager) (username : String) (credentials : List Nat)
    (method : String) (e : String)
    (hfb : m.config.fallback_to_internal = true)
    (hname : strContains m.provider.name "native" = true)
    (herr : m.provider.validate username credentials method = .error e) :
    ∃ b : Bool, AuthManager.validate_credentials platform_native m
      username credentials method = .ok b := by
  refine ⟨false, ?_⟩
  unfold AuthManager.validate_credentials
  rw [herr]
  simp [hfb, hname, AuthProviderFactory.create_provider]

/-- Claim C2 (witness): a failing `linux-native` provider under a
fallback-enabled configuration. -/
theorem manager_fallback_never_errors_witness :
    (mgrFallback.config.fallback_to_internal = true
      ∧ strContains mgrFallback.provider.name "native" = true
      ∧ mgrFallback.provider.validate "alice" [1, 2, 3] "password"
          = .error "Failed to list groups")
    ∧ ∃ b : Bool, AuthManager.validate_credentials platformNativeStub
        mgrFallback "alice" [1, 2, 3] "password" = .ok b :=
  ⟨⟨rfl, by decide, rfl⟩,
   manager_fallback_never_errors platformNativeStub mgrFallback
     "alice" [1, 2, 3] "password" "Failed to list groups" rfl (by decide) rfl⟩

/-- Claim C3: on the fallback path the result is always exactly
`Ok(false)`, because `AuthProviderFactory::create_provider` with the
`Internal` provider kind unconditionally fails (with the message
`"Internal provider not implemented in this example"`), so the
fallback provider is never constructed. -/
theorem manager_fallback_always_ok_false
    (platform_native : AuthConfig → Except String ProviderBehavior)
    (m : AuthManager) (username : String) (credentials : List Nat)
    (method : String) (e : String)
    (hfb : m.config.fallback_to_internal = true)
    (hname : strContains m.provider.name "native" = true)
    (herr : m.provider.validate username credentials method = .error e) :
    AuthProviderFactory.create_provider platform_native
        { m.config with provider := AuthProviderType.Internal }
      = .error "Internal provider not implemented in this example"
    ∧ AuthManager.validate_credentials platform_native m
        username credentials method = .ok false := by
  constructor
  · rfl
  · unfold AuthManager.validate_credentials
    rw [herr]
    simp [hfb, hname, AuthProviderFactory.create_provider]

/-- Claim C3 (witness): the fallback path at concrete inputs returns
`Ok(false)`. -/
theorem manager_fallback_always_ok_false_witness :
    (mgrFallback.config.fallback_to_internal = true
      ∧ strContains mgrFallback.provider.name "native" = true
      ∧ mgrFallback.provider.validate "bob" [] "psk"
          = .error "Failed to list groups")
    ∧ (AuthProviderFactory.create_provider platformNativeStub
          { mgrFallback.config with provider := AuthProviderType.Internal }
        = .error "Internal provider not implemented in this example"
       ∧ AuthManager.validate_credentials platformNativeStub mgrFallback
          "bob" [] "psk" = .ok false) :=
  ⟨⟨rfl, by decide, rfl⟩,
   manager_fallback_always_ok_false platformNativeStub mgrFallback
     "bob" [] "psk" "Failed to list groups" rfl (by decide) rfl⟩

/-- Claim C4 (counterexample): the claim is false as stated.  The
wildcard check of every provider's `has_permission` strips the whole
`:*` suffix (colon included) before the `starts_with` test, so the
granted pattern `"x:*"` matches the request `"xy:z"`, whose resource
name merely begins with `x` — although `"xy:z"` does not start with
`"x:"` (the spec's "prefix up to and including the colon",
`specPatternMatch`) and the pattern differs from the request. -/
theorem wildcard_matches_without_colon :
    hasPermissionLoop "xy:z" ["x:*"] = true
    ∧ specPatternMatch "x:*" "xy:z" = false := by
  decide

/-- Claim C4 (amended): a granted pattern `P` matches a requested
permission `R` iff `P = R`, or `P` ends in `:*` and `R` starts with
`P` with all trailing `:*` occurrences removed — the colon is NOT part
of the compared prefix, so `"x:*"` grants `"x:y"` and also `"xy:z"`,
while a request with an unrelated resource prefix (e.g. `"z:y"`) is
denied.  Stated for the native providers' scan loop and for
`MockAuthProvider::has_permission` on a non-admin user. -/
theorem has_permission_match_characterization (m : MockAuthProvider)
    (user : User) (perms : List String) (r : String)
    (hrole : user.role ≠ UserRole.Admin)
    (hperms : m.permissions.lookup user.username = some perms) :
    (hasPermissionLoop r perms = true ↔
      ∃ p ∈ perms, p = r ∨ (strEndsWith p ":*" = true
        ∧ strStartsWith r (trimEndMatches p ":*") = true))
    ∧ (MockAuthProvider.has_permission m user r = true ↔
      ∃ p ∈ perms, p = r ∨ (strEndsWith p ":*" = true
        ∧ strStartsWith r (trimEndMatches p ":*") = true)) := by
  constructor
  · exact hasPermissionLoop_iff r perms
  · unfold MockAuthProvider.has_permission
    rw [hperms]
    by_cases hc : perms.contains r
    · have hr : r ∈ perms := by simpa using hc
      simp only [hc, if_true, true_iff]
      exact ⟨r, hr, Or.inl rfl⟩
    · simp only [hc, Bool.false_eq_true, if_false]
      by_cases ha : (perms.any fun perm => strEndsWith perm ":*"
          && strStartsWith r (trimEndMatches perm ":*")) = true
      · simp only [ha, if_true, true_iff]
        simp only [List.any_eq_true, Bool.and_eq_true] at ha
        obtain ⟨p, hp, hmatch⟩ := ha
        exact ⟨p, hp, Or.inr hmatch⟩
      · simp only [Bool.not_eq_true] at ha
        simp only [ha, Bool.false_eq_true, if_false]
        constructor
        · intro h
          exact absurd (of_decide_eq_true h) hrole
        · rintro ⟨p, hp, hcase | hcase⟩
          · exact absurd (by simpa [hcase] using hp) (by simpa using hc)
          · have hcon : (perms.any fun perm => strEndsWith perm ":*"
                && strStartsWith r (trimEndMatches perm ":*")) = true := by
              simp only [List.any_eq_true, Bool.and_eq_true]
              exact ⟨p, hp, hcase⟩
            rw [ha] at hcon
            exact Bool.noConfusion hcon

/-- Claim C4 (witness): the non-admin user `testuser` holding only the
pattern `x:*` is granted `x:y` through the wildcard branch. -/
theorem has_permission_match_characterization_witness :
    (userC4.role ≠ UserRole.Admin
      ∧ mockC4.permissions.lookup userC4.username = some ["x:*"])
    ∧ MockAuthProvider.has_permission mockC4 userC4 "x:y" = true :=
  ⟨⟨by decide, rfl⟩,
   ((has_permission_match_characterization mockC4 userC4 ["x:*"] "x:y"
       (by decide) rfl).2).mpr
     ⟨"x:*", by decide, Or.inr (by decide)⟩⟩

/-- Claim C5 (counterexample): the claim is false for the Mock
provider.  `MockAuthProvider::validate_credentials` with the
unimplemented method `"kerberos"` returns the silent `Ok(false)` of
its catch-all arm, not an `UnsupportedMethod`-class error. -/
theorem mock_unknown_method_silent_false :
    MockAuthProvider.validate_credentials MockAuthProvider.new
      "testuser" [] "kerberos" = .ok false :=
  rfl

/-- Claim C5 (amended): the native providers error with
`"Unsupported authentication method: <method>"` for every method
outside `psk` / `password` / `publickey` (shown for the Linux
provider, whose `match` is shared verbatim by the other native
variants), while the Mock provider instead returns a silent
`Ok(false)` for every method other than `password` and `psk`. -/
theorem unknown_method_error_native_silent_mock (os : LinuxOs)
    (cfg : NativeAuthConfig) (m : MockAuthProvider) (username : String)
    (credentials : List Nat) (method : String)
    (h1 : method ≠ "psk") (h2 : method ≠ "password")
    (h3 : method ≠ "publickey") :
    LinuxAuthProvider.validate_credentials os cfg username credentials method
      = .error ("Unsupported authentication method: " ++ method)
    ∧ MockAuthProvider.validate_credentials m username credentials method
      = .ok false := by
  constructor
  · unfold LinuxAuthProvider.validate_credentials
    split
    · exact absurd rfl h1
    · exact absurd rfl h2
    · exact absurd rfl h3
    · rfl
  · unfold MockAuthProvider.validate_credentials
    split
    · exact absurd rfl h2
    · exact absurd rfl h1
    · rfl

/-- Claim C5 (witness): the unknown method `"kerberos"` at concrete
inputs. -/
theorem unknown_method_error_native_silent_mock_witness :
    (("kerberos" : String) ≠ "psk" ∧ ("kerberos" : String) ≠ "password"
      ∧ ("kerberos" : String) ≠ "publickey")
    ∧ (LinuxAuthProvider.validate_credentials linuxOsStub
          LinuxAuthConfig.default "testuser" [] "kerberos"
        = .error ("Unsupported authentication method: " ++ "kerberos")
       ∧ MockAuthProvider.validate_credentials MockAuthProvider.new
          "testuser" [] "kerberos" = .ok false) :=
  ⟨⟨by decide, by decide, by decide⟩,
   unknown_method_error_native_silent_mock linuxOsStub
     LinuxAuthConfig.default MockAuthProvider.new "testuser" [] "kerberos"
     (by decide) (by decide) (by decide)⟩

/-- Claim C6 (counterexample): the claim is false for
`LinuxAuthProvider::map_permissions`.  Under the provider's default
configuration — `require_group = Some("rcp-users")`, no custom
mappings, admin groups disjoint from the list — the group list
`["rcp-users"]` is mapped to `["connect:*"]` (the unconditional
baseline), not to `["connect:basic"]`; the Linux mapper has no
`connect:basic` branch at all. -/
theorem linux_map_permissions_no_connect_basic :
    LinuxAuthConfig.default.require_group = some "rcp-users"
    ∧ LinuxAuthConfig.default.permission_mappings = []
    ∧ ((["rcp-users"] : List String).any
        fun g => LinuxAuthConfig.default.admin_groups.contains g) = false
    ∧ LinuxAuthProvider.map_permissions LinuxAuthConfig.default ["rcp-users"]
        = ["connect:*"] := by
  decide

/-- Claim C6 (amended): the `connect:basic` floor holds for the shared
mapper `map_permissions_common`: when the group list intersects no
admin group, no listed group has a `permission_mappings` entry,
`require_group` is set and the list contains the required group, the
result is exactly `["connect:basic"]`.  The per-provider mappers
(Linux shown in the counterexample) never produce `connect:basic`. -/
theorem map_permissions_common_connect_basic (groups admin_groups : List String)
    (required_group : String) (pm : List (String × List String))
    (hadmin : (groups.any fun g => admin_groups.contains g) = false)
    (hmap : ∀ g ∈ groups, pm.lookup g = none)
    (hreq : groups.contains required_group = true) :
    map_permissions_common groups admin_groups (some required_group) pm
      = ["connect:basic"] := by
  unfold map_permissions_common
  simp only [hadmin, Bool.false_eq_true, if_false]
  rw [perm_fold_empty pm groups [] hmap]
  have hreq' : required_group ∈ groups := by simpa using hreq
  simp [hreq']

/-- Claim C6 (witness): scenario C of the spec — group list
`["rcp-users"]`, `require_group = "rcp-users"`, default admin groups,
no custom mappings. -/
theorem map_permissions_common_connect_basic_witness :
    (((["rcp-users"] : List String).any
        fun g => default_admin_groups.contains g) = false
      ∧ (∀ g ∈ (["rcp-users"] : List String),
          (([] : List (String × List String)).lookup g) = none)
      ∧ (["rcp-users"] : List String).contains "rcp-users" = true)
    ∧ map_permissions_common ["rcp-users"] default_admin_groups
        (some "rcp-users") [] = ["connect:basic"] :=
  ⟨⟨by decide, by decide, by decide⟩,
   map_permissions_common_connect_basic ["rcp-users"] default_admin_groups
     "rcp-users" [] (by decide) (by decide) (by decide)⟩

/-- Claim C7: when `fallback_to_internal` is false or the active
provider's name does not contain `"native"`,
`AuthManager::validate_credentials` propagates the provider's error
unchanged (the method borrows the manager immutably, so there is no
state change to observe). -/
theorem manager_error_propagated_unchanged
    (platform_native : AuthConfig → Except String ProviderBehavior)
    (m : AuthManager) (username : String) (credentials : List Nat)
    (method : String) (e : String)
    (herr : m.provider.validate username credentials method = .error e)
    (hcase : m.config.fallback_to_internal = false
      ∨ strContains m.provider.name "native" = false) :
    AuthManager.validate_credentials platform_native m
      username credentials method = .error e := by
  unfold AuthManager.validate_credentials
  rw [herr]
  rcases hcase with h | h <;> simp [h]

/-- Claim C7 (witness): with fallback disabled the failing
`linux-native` provider's error surfaces verbatim. -/
theorem manager_error_propagated_unchanged_witness :
    (mgrNoFallback.provider.validate "alice" [7] "password"
        = .error "Failed to list groups"
      ∧ mgrNoFallback.config.fallback_to_internal = false)
    ∧ AuthManager.validate_credentials platformNativeStub mgrNoFallback
        "alice" [7] "password" = .error "Failed to list groups" :=
  ⟨⟨rfl, rfl⟩,
   manager_error_propagated_unchanged platformNativeStub mgrNoFallback
     "alice" [7] "password" "Failed to list groups" rfl (Or.inl rfl)⟩

/-- Claim C8: `AuthManager::initialize` is idempotent — whenever a
call succeeds with resulting state `s'`, a repeated call returns `Ok`
and leaves the state (the `initialized` flag and the count of
provider-`initialize` invocations) exactly at `s'`. -/
theorem manager_initialize_idempotent (provider_init : Except String Unit)
    (s s' : InitState)
    (h : AuthManager.initializeMgr provider_init s = (.ok (), s')) :
    AuthManager.initializeMgr provider_init s' = (.ok (), s') := by
  unfold AuthManager.initializeMgr at h ⊢
  by_cases hs : s.initialized
  · simp [hs] at h
    obtain ⟨rfl⟩ := h
    simp [hs]
  · simp [hs] at h
    cases provider_init with
    | ok u =>
      simp at h
      subst h
      simp
    | error e => simp at h

/-- Claim C8 (witness): a first successful initialization from the
fresh state, then the repeated no-op call. -/
theorem manager_initialize_idempotent_witness :
    AuthManager.initializeMgr (.ok ()) ⟨false, 0⟩ = (.ok (), ⟨true, 1⟩)
    ∧ AuthManager.initializeMgr (.ok ()) ⟨true, 1⟩ = (.ok (), ⟨true, 1⟩) :=
  ⟨rfl, manager_initialize_idempotent (.ok ()) ⟨false, 0⟩ ⟨true, 1⟩ rfl⟩

/-- Claim C9: `UnixAuthProvider::get_user_groups` never modifies the
provider's `group_cache` (the computed list is inserted into a
discarded clone): every single call returns the provider state
unchanged, and any sequence of calls leaves it unchanged — so an empty
cache stays empty and memoization never takes effect through this
path. -/
theorem unix_get_user_groups_cache_frame (os : UnixOs)
    (p : UnixAuthProvider) (usernames : List String) :
    (∀ u : String, (UnixAuthProvider.get_user_groups os p u).2 = p)
    ∧ usernames.foldl
        (fun st u => (UnixAuthProvider.get_user_groups os st u).2) p = p := by
  constructor
  · intro u
    exact get_user_groups_state_eq os p u
  · induction usernames generalizing p with
    | nil => rfl
    | cons u us ih => simp [List.foldl_cons, get_user_groups_state_eq, ih]

/-- Claim C10: `MockAuthProvider::validate_credentials` with method
`"psk"` returns `Ok(true)` precisely when the username is a key of the
`users` map, and the result does not depend on the credential bytes:
any two credential sequences give the same result. -/
theorem mock_validate_psk_credentials_independent (m : MockAuthProvider)
    (username : String) (c1 c2 : List Nat) :
    MockAuthProvider.validate_credentials m username c1 "psk"
      = .ok ((m.users.lookup username).isSome)
    ∧ MockAuthProvider.validate_credentials m username c1 "psk"
      = MockAuthProvider.validate_credentials m username c2 "psk" :=
  ⟨rfl, rfl⟩
